import Mathlib

/-
Verification development for the job_hunter discovery/triage pipeline.

The Python source is shallowly embedded: Python strings are modelled as
`List Char` (the source only manipulates ASCII selector/markup text, and
`Char.toLower` agrees with Python `str.lower` on ASCII), Python floats as `ℚ`
(the scoring arithmetic is +, min, max and comparisons on small decimal
values), Python ints as `ℕ`/`ℤ`, and fallible lookups as `Option`.
-/

namespace JobHunter

/-! ## Character and string primitives (models of the Python string operations) -/

/-- Model of Python `\s` on the ASCII range (space, tab, newline, return,
form feed, vertical tab). -/
def isPySpace (c : Char) : Bool :=
  c = ' ' || c = '\t' || c = '\n' || c = '\r' || c = '\x0b' || c = '\x0c'

/-- Model of Python `\w` (regex word character) on the ASCII range:
alphanumeric or underscore. -/
def isPyWordChar (c : Char) : Bool := c.isAlphanum || c = '_'

/-- Python `str.lower()` (ASCII). -/
def lowerL (s : List Char) : List Char := s.map Char.toLower

/-- Python `str.strip()` (ASCII whitespace). -/
def pyStrip (s : List Char) : List Char :=
  ((s.dropWhile isPySpace).reverse.dropWhile isPySpace).reverse

/-- The `_norm` helper of `site_adapter.py`: strip, then lower-case (a
missing string reads as empty). -/
def pyNorm (s : List Char) : List Char := lowerL (pyStrip s)

/-- Python `s.startswith(p)`: `p` is a prefix of `s`. -/
def hasPrefixL (p s : List Char) : Bool := p == s.take p.length

/-- Python `s.endswith(p)`: `p` is a suffix of `s`. -/
def hasSuffixL (p s : List Char) : Bool :=
  p.length ≤ s.length && p == s.drop (s.length - p.length)

/-- Python `n in h`: `n` occurs as a contiguous substring of `h`. -/
def hasSubL (n h : List Char) : Bool :=
  hasPrefixL n h ||
    match h with
    | [] => false
    | _ :: t => hasSubL n t

/-- Digits of a decimal numeral to a natural number. -/
def digitsToNat (s : List Char) : ℕ :=
  s.foldl (fun a c => a * 10 + (c.toNat - '0'.toNat)) 0

/-- Kernel-computable addition on `ℚ` (the library's `Rat.add` does not reduce
inside `decide`; this cross-multiplied form built on `Rat.divInt` does, and is
proved equal to `+` in `qAdd_eq`). -/
def qAdd (a b : ℚ) : ℚ :=
  Rat.divInt (a.num * (b.den : ℤ) + b.num * (a.den : ℤ)) ((a.den : ℤ) * (b.den : ℤ))

/-- Model of Python 3 `round` on an exact rational value: round half to even
(banker's rounding), as `int(round(score))` does in `_apply_card_scoring`.
Written with integer arithmetic on the reduced numerator/denominator so that
it kernel-reduces: with `f = ⌊q⌋` and `r = num - f*den`, the fractional part
is `r/den`, and `r/den < 1/2 ↔ 2r < den` since `den > 0`. -/
def pyRound (q : ℚ) : ℤ :=
  let f := q.num.fdiv (q.den : ℤ)
  let r := q.num - f * (q.den : ℤ)
  if 2 * r < (q.den : ℤ) then f
  else if (q.den : ℤ) < 2 * r then f + 1
  else if f % 2 = 0 then f else f + 1

/-! ## String constants from `site_adapter.py` -/

def kwContains : List Char := "contains".toList

def kwEquals : List Char := "equals".toList

def kwExact : List Char := "exact".toList

def kwStartswith : List Char := "startswith".toList

def kwEndswith : List Char := "endswith".toList

def kwRegex : List Char := "regex".toList

def kwRe : List Char := "re".toList

def kwWord : List Char := "word".toList

def kwWholeword : List Char := "wholeword".toList

def kwList : List Char := "list".toList

def kwAny : List Char := "any".toList

def kwContainsAny : List Char := "contains_any".toList

def kwInclude : List Char := "include".toList

def kwRange : List Char := "range".toList

def kwMinimumscore : List Char := "minimumscore".toList

def kwMinscore : List Char := "minscore".toList

def kwMinimum : List Char := "minimum".toList

def kwMin : List Char := "min".toList

def kwMaximumscore : List Char := "maximumscore".toList

def kwMaxscore : List Char := "maxscore".toList

def kwMaximum : List Char := "maximum".toList

def kwMax : List Char := "max".toList

def kwIncreasescore : List Char := "increasescore".toList

def kwIncrease : List Char := "increase".toList

def kwInc : List Char := "inc".toList

def kwPositive : List Char := "positive".toList

def kwDecreasescore : List Char := "decreasescore".toList

def kwDecrease : List Char := "decrease".toList

def kwDec : List Char := "dec".toList

def kwNegative : List Char := "negative".toList

def kwExclude : List Char := "exclude".toList

def kwBan : List Char := "ban".toList

def kwBlock : List Char := "block".toList

def kwTitle : List Char := "title".toList

def kwCompany : List Char := "company".toList

def kwLocation : List Char := "location".toList

def kwSuburb : List Char := "suburb".toList

def kwUrl : List Char := "url".toList

def kwLink : List Char := "link".toList

def kwListingId : List Char := "listing_id".toList

/-! ## The matching primitive `_match` of `_apply_card_scoring` -/

/-- Word character read of position `i` of `l`; out-of-range positions read as
a non-word character (regex `\b` treats both ends of the string as non-word). -/
def wordCharAtL (l : List Char) (i : ℕ) : Bool := isPyWordChar (l.getD i ' ')

/-- Position `i` (between indices `i-1` and `i`) is a regex `\b` word boundary:
exactly one of the two adjacent positions holds a word character. -/
def boundaryAtL (l : List Char) (i : ℕ) : Bool :=
  if i = 0 then wordCharAtL l 0 else (wordCharAtL l (i - 1) != wordCharAtL l i)

/-- Test that `pat` occurs in `l` starting at index `i`. -/
def sublistAtL (l pat : List Char) (i : ℕ) : Bool := pat == (l.drop i).take pat.length

/-- Model of `re.search(rf"\b{re.escape(n)}\b", h)`: the escaped literal `n`
occurs somewhere in `h` with a word boundary on each side. -/
def wordMatch (h n : List Char) : Bool :=
  (List.range (h.length + 1)).any fun i =>
    sublistAtL h n i && boundaryAtL h i && boundaryAtL h (i + n.length)

/-- The Python `re.search` engine used by the `regex` method is an external
collaborator of the scoring code; the embedding takes it as a parameter
(arguments in source order: pattern, haystack). -/
abbrev RegexSearch := List Char → List Char → Bool

/-- Model of `_to_float_local` (and module-level `_to_float` with no default):
Python `float()` on the decimal-literal subset actually produced by criteria
rows (optional sign, digits with an optional fraction part; `float()` forms
such as exponents, `inf`/`nan` or `_` separators do not occur in the rule
configuration and are not modelled; the dead fallback branch after a failed
`float()` — whose doubled-backslash pattern `^[-+]?(\\d+(?:\\.\\d+)?)$` can
only re-raise — is modelled as a parse failure). -/
def parsePyFloat (s0 : List Char) : Option ℚ :=
  let s := pyStrip s0
  let signed : ℤ × List Char :=
    match s with
    | '-' :: t => (-1, t)
    | '+' :: t => (1, t)
    | _ => (1, s)
  let sign := signed.1
  let s1 := signed.2
  let ip := s1.takeWhile Char.isDigit
  let rest := s1.dropWhile Char.isDigit
  match rest with
  | [] => if ip = [] then none else some (Rat.divInt (sign * (digitsToNat ip : ℤ)) 1)
  | '.' :: t =>
    let fp := t.takeWhile Char.isDigit
    let rest2 := t.dropWhile Char.isDigit
    if rest2 = [] ∧ (ip ≠ [] ∨ fp ≠ []) then
      some (Rat.divInt (sign * ((digitsToNat ip * 10 ^ fp.length + digitsToNat fp : ℕ) : ℤ))
        ((10 ^ fp.length : ℕ) : ℤ))
    else none
  | _ => none

/-- The `_match(method, haystack, needle)` helper of `_apply_card_scoring`:
normalizes the method, lower-cases both sides, and dispatches to equality /
prefix / suffix / regex / word-boundary matching, treating every other method
as case-insensitive substring containment. The regex branch passes the
un-lowered needle and haystack to the external `re.search`. -/
def pyMatch (rsearch : RegexSearch) (method haystack needle : List Char) : Bool :=
  let m := pyNorm method
  let h := lowerL haystack
  let n := lowerL needle
  if m == kwEquals || m == kwExact then h == n
  else if m == kwStartswith then hasPrefixL n h
  else if m == kwEndswith then hasSuffixL n h
  else if m == kwRegex || m == kwRe then rsearch needle haystack
  else if m == kwWord || m == kwWholeword then wordMatch h n
  else hasSubL n h

/-! ## Criteria data model (rows produced by `_load_card_criteria`) -/

/-- One row of the `"Criteria Lists"` table: a literal trigger value and its
`impact_on_score` tag. -/
structure CriterionItem where
  value : List Char
  impact : Option (List Char)
deriving DecidableEq

/-- One criterion dict as built by `_load_card_criteria`: resolved target
field, match method, optional min/max bound values, optional
increase/decrease deltas, and the ordered item list. -/
structure Criterion where
  field : List Char
  method : Option (List Char)
  min : Option ℚ
  max : Option ℚ
  inc : Option ℚ
  dec : Option ℚ
  items : List CriterionItem
deriving DecidableEq

/-- The listing dict passed to `_apply_card_scoring` by `_upsert_card`
(exactly the keys `listing_id`, `title`, `company`, `location`, `url`). -/
structure Listing where
  listing_id : Option (List Char)
  title : List Char
  company : List Char
  location : List Char
  url : List Char
deriving DecidableEq

/-- The `field_value` helper: resolves a (normalized) field name on the
listing dict; names other than the dict's keys read as the empty string
(the dict lookup falls back to the empty string). -/
def fieldValue (l : Listing) (name : List Char) : List Char :=
  let n := pyNorm name
  if n == kwTitle then l.title
  else if n == kwCompany then l.company
  else if n == kwLocation || n == kwSuburb then l.location
  else if n == kwUrl || n == kwLink then l.url
  else if n == kwListingId then (match l.listing_id with | some s => s | none => [])
  else []

/-- Impact-tag normalization of `_apply_card_scoring`: `_norm`, underscores removed,
then the synonym table mapping onto the five canonical effect tags; anything
else (including a literal numeric string) passes through unchanged. -/
def impactAliased (impact : Option (List Char)) : List Char :=
  match impact with
  | none => []
  | some s =>
    let a := (pyNorm s).filter (fun c => c ≠ '_')
    if a ∈ [kwMinimumscore, kwMinscore, kwMinimum, kwMin] then kwMinimum
    else if a ∈ [kwMaximumscore, kwMaxscore, kwMaximum, kwMax] then kwMaximum
    else if a ∈ [kwIncreasescore, kwIncrease, kwInc, kwPositive, kwInclude] then kwIncrease
    else if a ∈ [kwDecreasescore, kwDecrease, kwDec, kwNegative] then kwDecrease
    else if a ∈ [kwExclude, kwBan, kwBlock] then kwExclude
    else a

/-- Method normalization done once per criterion in the scoring loop:
missing or empty method defaults to `contains`, then `_norm`, then the synonym collapse of
`list`/`any`/`contains_any`/`include`/`range` to `contains`. -/
def normalizeLoopMethod (c : Criterion) : List Char :=
  let raw :=
    match c.method with
    | none => kwContains
    | some s => if s = [] then kwContains else s
  let m := pyNorm raw
  if m ∈ [kwList, kwAny, kwContainsAny, kwInclude, kwRange] then kwContains else m

/-- Reason entries recorded by the scoring pass (the source formats these as
strings; the embedding records the same data structurally). -/
inductive Reason where
  | numericHit (field value : List Char) (q : ℚ)
  | incHit (field value : List Char) (q : ℚ)
  | decHit (field value : List Char) (q : ℚ)
  | excludeHit (field value : List Char)
  | minCapHit (field value : List Char) (q : ℚ)
  | maxFloorHit (field value : List Char) (q : ℚ)
  | noopHit (field value impact : List Char)
deriving DecidableEq

/-- Mutable state of the `_apply_card_scoring` pass: running score, exclusion
flag, reasons, and the two collected post-pass clamps
(`enforce_min_after` = downward cap, `enforce_max_after` = upward floor). -/
structure ScoreState where
  score : ℚ
  excluded : Bool
  reasons : List Reason
  minCapAfter : Option ℚ
  maxFloorAfter : Option ℚ
deriving DecidableEq

/-- Classification of what one item does, following the branch order of the
inner loop of `_apply_card_scoring`: empty value is skipped; a non-match does
nothing; then a numerically parsable impact is a literal delta; then the five
canonical tags; a bound tag whose criterion lacks the corresponding bound
value does nothing at all; any other tag is a no-op that still records a
reason. -/
inductive ItemEffect where
  | skipEmpty
  | nomatch
  | numeric (q : ℚ)
  | increase
  | decrease
  | exclude
  | ceilReg (v : ℚ)
  | ceilNoValue
  | floorReg (v : ℚ)
  | floorNoValue
  | noop (impact : List Char)
deriving DecidableEq

def itemEffect (rsearch : RegexSearch) (c : Criterion) (fval method : List Char)
    (it : CriterionItem) : ItemEffect :=
  if it.value = [] then .skipEmpty
  else
    let impact := impactAliased it.impact
    if pyMatch rsearch method fval it.value = false then .nomatch
    else
      match parsePyFloat impact with
      | some q => .numeric q
      | none =>
        if impact == kwIncrease then .increase
        else if impact == kwDecrease then .decrease
        else if impact == kwExclude then .exclude
        else if impact == kwMinimum then
          match c.min with
          | some v => .ceilReg v
          | none => .ceilNoValue
        else if impact == kwMaximum then
          match c.max with
          | some v => .floorReg v
          | none => .floorNoValue
        else .noop impact

/-- One iteration of the inner item loop of `_apply_card_scoring`. -/
def processItem (rsearch : RegexSearch) (c : Criterion) (fval method : List Char)
    (st : ScoreState) (it : CriterionItem) : ScoreState :=
  match itemEffect rsearch c fval method it with
  | .skipEmpty => st
  | .nomatch => st
  | .numeric q =>
    { st with score := qAdd st.score q, reasons := st.reasons ++ [.numericHit c.field it.value q] }
  | .increase =>
    let d := c.inc.getD 1
    { st with score := qAdd st.score d, reasons := st.reasons ++ [.incHit c.field it.value d] }
  | .decrease =>
    let d := c.dec.getD (-1)
    { st with score := qAdd st.score d, reasons := st.reasons ++ [.decHit c.field it.value d] }
  | .exclude =>
    { st with excluded := true, reasons := st.reasons ++ [.excludeHit c.field it.value] }
  | .ceilReg v =>
    { st with
      minCapAfter := some (match st.minCapAfter with | none => v | some m => Min.min m v)
      reasons := st.reasons ++ [.minCapHit c.field it.value v] }
  | .ceilNoValue => st
  | .floorReg v =>
    { st with
      maxFloorAfter := some (match st.maxFloorAfter with | none => v | some m => Max.max m v)
      reasons := st.reasons ++ [.maxFloorHit c.field it.value v] }
  | .floorNoValue => st
  | .noop impact =>
    { st with reasons := st.reasons ++ [.noopHit c.field it.value impact] }

/-- One iteration of the outer criterion loop of `_apply_card_scoring`. -/
def processCriterion (rsearch : RegexSearch) (l : Listing) (st : ScoreState)
    (c : Criterion) : ScoreState :=
  c.items.foldl (processItem rsearch c (fieldValue l c.field) (normalizeLoopMethod c)) st

/-- The state of the scoring pass after all criteria have been evaluated,
starting from `score = float(base_score)`. -/
def scoreLoop (rsearch : RegexSearch) (l : Listing) (criteria : List Criterion)
    (base : ℤ) : ScoreState :=
  criteria.foldl (processCriterion rsearch l)
    { score := Rat.divInt base 1, excluded := false, reasons := []
      minCapAfter := none, maxFloorAfter := none }

/-- First stage of the post-pass clamp of `_apply_card_scoring`: apply the
collected downward cap (`enforce_min_after`), if any, to the running score. -/
def cappedScore (st : ScoreState) : ℚ :=
  match st.minCapAfter with | none => st.score | some m => Min.min st.score m

/-- The post-pass clamp of `_apply_card_scoring`: the collected downward cap
(`min`) is applied first, then the collected upward floor (`max`). -/
def applyBounds (st : ScoreState) : ℚ :=
  match st.maxFloorAfter with | none => cappedScore st | some f => Max.max (cappedScore st) f

/-- `_apply_card_scoring(listing, criteria_rows, base_score)`: returns
`(final_score, excluded, reasons)` with `final_score = int(round(score))`
after the two clamps. -/
def applyCardScoring (rsearch : RegexSearch) (l : Listing) (criteria : List Criterion)
    (base : ℤ) : ℤ × Bool × List Reason :=
  let st := scoreLoop rsearch l criteria base
  (pyRound (applyBounds st), st.excluded, st.reasons)

/-! Ghost collectors for the bound effects: the ceiling (resp. floor) values
registered during the pass, in pass order. These are projections of the same
`itemEffect` classification that drives `processItem`. -/

def itemCeilRegs (rsearch : RegexSearch) (c : Criterion) (fval method : List Char)
    (it : CriterionItem) : List ℚ :=
  match itemEffect rsearch c fval method it with
  | .ceilReg v => [v]
  | _ => []

def itemFloorRegs (rsearch : RegexSearch) (c : Criterion) (fval method : List Char)
    (it : CriterionItem) : List ℚ :=
  match itemEffect rsearch c fval method it with
  | .floorReg v => [v]
  | _ => []

def criterionCeilRegs (rsearch : RegexSearch) (l : Listing) (c : Criterion) : List ℚ :=
  (c.items.map (itemCeilRegs rsearch c (fieldValue l c.field) (normalizeLoopMethod c))).flatten

def criterionFloorRegs (rsearch : RegexSearch) (l : Listing) (c : Criterion) : List ℚ :=
  (c.items.map (itemFloorRegs rsearch c (fieldValue l c.field) (normalizeLoopMethod c))).flatten

def registeredCeilings (rsearch : RegexSearch) (l : Listing) (criteria : List Criterion) : List ℚ :=
  (criteria.map (criterionCeilRegs rsearch l)).flatten

def registeredFloors (rsearch : RegexSearch) (l : Listing) (criteria : List Criterion) : List ℚ :=
  (criteria.map (criterionFloorRegs rsearch l)).flatten

/-- The accumulator update performed on `enforce_min_after` when a ceiling
value `v` is registered: `v` if no cap was collected yet, else the minimum. -/
def optMinUpd (o : Option ℚ) (v : ℚ) : Option ℚ :=
  some (match o with | none => v | some m => Min.min m v)

/-- The accumulator update performed on `enforce_max_after` when a floor
value `v` is registered: `v` if no floor was collected yet, else the maximum. -/
def optMaxUpd (o : Option ℚ) (v : ℚ) : Option ℚ :=
  some (match o with | none => v | some m => Max.max m v)

/-- A fixed (empty) regex collaborator for concrete test inputs whose
criteria do not use the `regex` method. -/
def noRegex : RegexSearch := fun _ _ => false

/-! ## Generic leftmost regex search: try a match at position 0, then at each
following position (including the end-of-string position), as `re.search`
does for the concrete patterns modelled below. -/

def searchSuffixes {α : Type} (f : List Char → Option α) : List Char → Option α
  | [] => f []
  | s@(_ :: t) =>
    match f s with
    | some r => some r
    | none => searchSuffixes f t

/-! ## Listing-id extraction (`SiteAdapter.extract_listing_minimal`) -/

def litHttp : List Char := "http".toList

def litSlash : List Char := "/".toList

def litJobPath : List Char := "/job/".toList

def litJobIdKey : List Char := "\"jobId\"".toList

/-- The head of `l` is not a regex word character (an empty `l` counts as a
boundary). -/
def nonWordStart (l : List Char) : Bool :=
  match l with
  | [] => true
  | c :: _ => !isPyWordChar c

/-- Match of `r"/job/(\d{5,12})\b"` anchored at the start of `s`. The regex
can only succeed on the maximal digit run after the literal: a shorter greedy
backtrack leaves a digit (a word character) right after the group, so `\b`
fails; hence the run must have length 5..12 and be followed by a non-word
character or the end of the string. -/
def idFromJobPathAt (s : List Char) : Option (List Char) :=
  if hasPrefixL litJobPath s then
    let rest := s.drop litJobPath.length
    let run := rest.takeWhile Char.isDigit
    if 5 ≤ run.length ∧ run.length ≤ 12 ∧ nonWordStart (rest.drop run.length) = true then
      some run
    else none
  else none

def idFromJobPath (s : List Char) : Option (List Char) := searchSuffixes idFromJobPathAt s

/-- Match of the pattern `"jobId"` `\s*:\s*` `(\d+)` (5 to 12 digits) anchored at the start of `s`:
the quoted literal, optional whitespace around a colon, then a greedy
5..12-digit group (the first 12 digits of the run; at least 5 required). -/
def idFromMarkupAt (s : List Char) : Option (List Char) :=
  if hasPrefixL litJobIdKey s then
    let r1 := (s.drop litJobIdKey.length).dropWhile isPySpace
    match r1 with
    | ':' :: r2 =>
      let r3 := r2.dropWhile isPySpace
      let run := r3.takeWhile Char.isDigit
      if 5 ≤ run.length then some (run.take 12) else none
    | _ => none
  else none

def idFromMarkup (s : List Char) : Option (List Char) := searchSuffixes idFromMarkupAt s

/-- Match of `r"(\d{5,12})"` anchored at the start of `s`: at least five
digits here, the group taking greedily up to twelve. -/
def idGenericAt (s : List Char) : Option (List Char) :=
  let run := s.takeWhile Char.isDigit
  if 5 ≤ run.length then some (run.take 12) else none

def idGeneric (s : List Char) : Option (List Char) := searchSuffixes idGenericAt s

/-- A SERP card as `extract_listing_minimal` reads it: the `href` of the
resolved title anchor (`[]` when no title anchor matched, i.e. `url_path`
is empty), the `data-job-id` attribute of the card node, the card's raw
markup (`str(card)`), and the visible text fields. -/
structure Card where
  urlPath : List Char
  dataJobId : Option (List Char)
  rawMarkup : List Char
  title : List Char
  company : List Char
  location : List Char
deriving DecidableEq

/-- The URL join of `extract_listing_minimal`: a relative `url_path` is
appended to the site base URL (with a `/` inserted unless already present);
an absolute or empty path is returned as is. -/
def joinUrl (baseUrl urlPath : List Char) : List Char :=
  if urlPath ≠ [] ∧ ¬(hasPrefixL litHttp urlPath = true ∨ hasPrefixL baseUrl urlPath = true) then
    if hasPrefixL litSlash urlPath then baseUrl ++ urlPath else baseUrl ++ litSlash ++ urlPath
  else urlPath

/-- The data-attribute id source: the `data-job-id` attribute or `None` (an empty
attribute value is falsy and yields `None`). -/
def attrId (card : Card) : Option (List Char) :=
  match card.dataJobId with
  | some d => if d = [] then none else some d
  | none => none

/-- `SiteAdapter.extract_listing_minimal`: minimal fields plus the four-tier
listing-id cascade (URL `/job/` segment, data attribute, embedded `"jobId"`
field, generic numeric substring of the URL — the last only when the URL is
non-empty), each tier tried only if all earlier tiers produced no id. -/
def extractListingMinimal (baseUrl : List Char) (card : Card) : Listing :=
  let url := joinUrl baseUrl card.urlPath
  let id1 := idFromJobPath url
  let id2 := match id1 with | some i => some i | none => attrId card
  let id3 := match id2 with | some i => some i | none => idFromMarkup card.rawMarkup
  let id4 := match id3 with | some i => some i | none => if url ≠ [] then idGeneric url else none
  { listing_id := id4, title := card.title, company := card.company
    location := card.location, url := url }

/-! ## Dedup/Upsert Gateway (`_upsert_card` and `_direct_upsert_listing_row`) -/

/-- In-memory gateway state for the active site during one keyword traversal:
the persisted row count per listing id (for the fixed (site, listing id) key
family of this site), the preloaded/accumulated seen-id set, and the insert
and skip counters of `scrape_site_summary`. -/
structure GatewayState where
  rows : List Char → ℕ
  seen : List (List Char)
  inserted : ℕ
  skipped : ℕ

inductive UpsertOutcome where
  | droppedNoId
  | skippedDup
  | insertedNew (score : ℤ) (excluded : Bool) (queued : Bool)
deriving DecidableEq

/-- Modelled from the spec: the persistence collaborator's
`upsert_listing_minimal` (module `utils.db_helpers`, which is not under
src/) is an "upsert-minimal-listing (idempotent by (site, listing id))"
operation; it inserts the row if absent, leaves an existing row alone, and
reports success. `_upsert_card` (source, `scrape_site_summary`): extract the
card, drop it when no listing id was resolved, count a skip when the id is
already in the seen set, otherwise score the listing, compute
`queue_deep = (not excluded) and (prelim_score >= provisional_threshold)`,
upsert the minimal row, add the id to the seen set and count the insert. -/
def upsertCard (rsearch : RegexSearch) (criteria : List Criterion) (threshold : ℤ)
    (baseUrl : List Char) (st : GatewayState) (card : Card) : GatewayState × UpsertOutcome :=
  let data := extractListingMinimal baseUrl card
  match data.listing_id with
  | none => (st, .droppedNoId)
  | some lid =>
    if lid ∈ st.seen then
      ({ st with skipped := st.skipped + 1 }, .skippedDup)
    else
      let scored := applyCardScoring rsearch data criteria 3
      let prelim := scored.1
      let excl := scored.2.1
      let queueDeep := !excl && decide (threshold ≤ prelim)
      ({ st with
          rows := fun k => if k = lid then Max.max (st.rows lid) 1 else st.rows k
          seen := lid :: st.seen
          inserted := st.inserted + 1 },
        .insertedNew prelim excl queueDeep)

inductive DirectUpsertResult where
  | insertedRow
  | ignoredDuplicate
deriving DecidableEq

/-- `_direct_upsert_listing_row`: `INSERT OR IGNORE` against the listing
table. When a row with the primary key already exists the insert is ignored
(`rowcount = 0`), the follow-up existence check finds it, and the function
returns `(False, "ignored (duplicate)")`; otherwise the row is written and
`(True, "inserted")` is returned. The data model's key for a listing row is
(site, listing id); `rows` is the count map for the active site. -/
def directUpsertListingRow (rows : List Char → ℕ) (lid : List Char) :
    (List Char → ℕ) × Bool × DirectUpsertResult :=
  if 0 < rows lid then (rows, false, .ignoredDuplicate)
  else ((fun k => if k = lid then 1 else rows k), true, .insertedRow)

/-! ## Total-count resolution (`SeekAdapter.parse_total_listings`) -/

def litWith : List Char := "with".toList

def litJob : List Char := "job".toList

def litS : List Char := "s".toList

def litFound : List Char := "found".toList

def litTotalJobCount : List Char := "\"totalJobCount\"".toList

/-- Match of `r"(\d[\d,]*)"` anchored at the start of `s`: a digit followed
greedily by digits and commas; the group's commas are stripped before `int()`. -/
def numberAt (s : List Char) : Option ℕ :=
  match s with
  | c :: _ =>
    if c.isDigit then
      some (digitsToNat ((s.takeWhile fun d => d.isDigit || d = ',').filter Char.isDigit))
    else none
  | [] => none

/-- Leftmost `(\d[\d,]*)` match in `s`, as an integer. -/
def findFirstNumber (s : List Char) : Option ℕ := searchSuffixes numberAt s

/-- Consume the literal `lit` at the head of `s`. -/
def parseLitP (lit s : List Char) : Option (List Char) :=
  if hasPrefixL lit s then some (s.drop lit.length) else none

/-- Consume `\s+` (one or more whitespace characters, greedily; the following
tokens of the patterns below start with non-whitespace, so no backtracking
into the run is ever needed). -/
def parseWs1 (s : List Char) : Option (List Char) :=
  match s with
  | c :: t => if isPySpace c then some (t.dropWhile isPySpace) else none
  | [] => none

/-- Consume `\d[\d,]*` and return its integer value (commas stripped). The
character class excludes whitespace, so the greedy run never needs to be
given back to the following `\s+`. -/
def parseNumTok (s : List Char) : Option (ℕ × List Char) :=
  match s with
  | c :: _ =>
    if c.isDigit then
      let run := s.takeWhile fun d => d.isDigit || d = ','
      some (digitsToNat (run.filter Char.isDigit), s.drop run.length)
    else none
  | [] => none

/-- Match of `r"with\s+(\d[\d,]*)\s+jobs?\s+found"` anchored at the start of
`s` (already lower-cased: the original search is case-insensitive and the
pattern's letters are lower-case). The optional `s?` is greedy: try with the
`s` consumed first, then without. -/
def jobsFoundAt (s : List Char) : Option ℕ :=
  match parseLitP litWith s with
  | none => none
  | some s1 =>
    match parseWs1 s1 with
    | none => none
    | some s2 =>
      match parseNumTok s2 with
      | none => none
      | some (n, s3) =>
        match parseWs1 s3 with
        | none => none
        | some s4 =>
          match parseLitP litJob s4 with
          | none => none
          | some s5 =>
            let withS : Option (List Char) :=
              match parseLitP litS s5 with
              | none => none
              | some s6 =>
                match parseWs1 s6 with
                | none => none
                | some s7 => parseLitP litFound s7
            match withS with
            | some _ => some n
            | none =>
              match parseWs1 s5 with
              | none => none
              | some s6 =>
                match parseLitP litFound s6 with
                | none => none
                | some _ => some n

/-- Leftmost `with\s+(\d[\d,]*)\s+jobs?\s+found` match, as an integer. -/
def searchJobsFound (s : List Char) : Option ℕ := searchSuffixes jobsFoundAt s

/-- Match of the pattern `"totalJobCount"` `\s*:\s*` `(\d+)` anchored at the start of `s`. -/
def totalJobCountAt (s : List Char) : Option ℕ :=
  match parseLitP litTotalJobCount s with
  | none => none
  | some r1 =>
    match r1.dropWhile isPySpace with
    | ':' :: r2 =>
      let r3 := r2.dropWhile isPySpace
      match r3 with
      | c :: _ => if c.isDigit then some (digitsToNat (r3.takeWhile Char.isDigit)) else none
      | [] => none
    | _ => none

/-- Leftmost `"totalJobCount"\s*:\s*(\d+)` match, as an integer. -/
def searchTotalJobCount (s : List Char) : Option ℕ := searchSuffixes totalJobCountAt s

/-- A rendered results page as `SeekAdapter.parse_total_listings` observes it
through the driver: the text of the total-jobs banner element when that
element is present, the `content` attributes of the `meta[name="description"]`
elements, the raw page source, and the number of visible job cards (read by
other adapter entry points; recorded here to state what the resolver does
not depend on). -/
structure RenderedPage where
  totalMessageText : Option (List Char)
  metaDescriptions : List (List Char)
  pageSource : List Char
  visibleCards : ℕ
deriving DecidableEq

/-- Tier 1: the numeric banner text (`el.text.strip()`, first number). -/
def tierBanner (p : RenderedPage) : Option ℕ :=
  p.totalMessageText.bind fun t => findFirstNumber (pyStrip t)

/-- Tier 2: the first meta description whose stripped content contains a
`with N jobs found` phrase (case-insensitive). -/
def tierMeta (p : RenderedPage) : Option ℕ :=
  p.metaDescriptions.findSome? fun c0 => searchJobsFound (lowerL (pyStrip c0))

/-- Tier 3: the embedded `"totalJobCount"` field of the raw markup. -/
def tierEmbedded (p : RenderedPage) : Option ℕ :=
  searchTotalJobCount p.pageSource

/-- `SeekAdapter.parse_total_listings`: banner, then meta description, then
embedded total; each tier returns whatever number it parses (zero included);
0 when every tier fails. -/
def seekParseTotalListings (p : RenderedPage) : ℕ :=
  match tierBanner p with
  | some n => n
  | none =>
    match tierMeta p with
    | some n => n
    | none =>
      match tierEmbedded p with
      | some n => n
      | none => 0

/-- First successful non-zero tier of a tier list (helper for the spec-side
resolver below). -/
def firstNonZero : List (Option ℕ) → ℕ
  | [] => 0
  | o :: t =>
    match o with
    | some n => if n ≠ 0 then n else firstNonZero t
    | none => firstNonZero t

/-- The total-count resolution as claim C3's words describe it (spec-side
definition, for comparison only): tiers (a) banner, (b) `with N jobs found`
metadata phrase, (c) embedded structured total, (d) number of visible cards;
the first successful non-zero result wins; 0 when all tiers fail. -/
def specResolveTotalCount (p : RenderedPage) : ℕ :=
  firstNonZero [tierBanner p, tierMeta p, tierEmbedded p, some p.visibleCards]

/-! ## Deep enrichment (`deepEnrich`) -/

/-- Modelled from the spec: `deepEnrich(detailPage)` is invoked as
`adapter.deep_enrich(site_cfg, html)` in `main_scraper.main`, but no
implementation exists under src/ (neither `SiteAdapter` nor `SeekAdapter`
defines it). Per the spec it is a best-effort text extraction; a `DetailPage`
records what that extraction finds on the detail page (`none` = the field
could not be extracted). -/
structure DetailPage where
  descriptionText : Option (List Char)
  payTextRaw : Option (List Char)
  closingDateTextRaw : Option (List Char)
deriving DecidableEq

/-- The enrichment record `{description, payText, closingDateText}`. -/
structure Enrichment where
  description : List Char
  payText : List Char
  closingDateText : List Char
deriving DecidableEq

/-- Modelled from the spec: `deepEnrich(detailPage) -> {description, payText,
closingDateText}`; any missing field yields an empty string, never an error
(the function is total). -/
def deepEnrich (p : DetailPage) : Enrichment :=
  { description := p.descriptionText.getD []
    payText := p.payTextRaw.getD []
    closingDateText := p.closingDateTextRaw.getD [] }

/-! ## Pagination totals (`scrape_site_summary`) -/

/-- The page-size guard of `scrape_site_summary`: a discovered size that is
missing (`None`) or non-positive is replaced by `max(cards_found_page1, 22)`
(the discovered size itself comes from a `(\d+)` parse and is a natural
number). -/
def resolvePageSize (discovered : Option ℕ) (cardsFoundPage1 : ℕ) : ℕ :=
  match discovered with
  | some ps => if ps = 0 then Max.max cardsFoundPage1 22 else ps
  | none => Max.max cardsFoundPage1 22

/-- `total_pages = int((total_reported + page_size - 1) / page_size) if
total_reported else (1 if cards_found_page1 else 0)`. The Python expression
divides exactly (floats) and truncates; on the exact values this is the
floor, i.e. natural division. -/
def computeTotalPages (totalReported pageSize cardsFoundPage1 : ℕ) : ℕ :=
  if totalReported ≠ 0 then (totalReported + pageSize - 1) / pageSize
  else if cardsFoundPage1 ≠ 0 then 1 else 0

/-! ## Listing rows (`update_listing_enrichment`, `_update_listing_score`) -/

def kwQueuedDeep : List Char := "queued_deep".toList

def kwNew : List Char := "new".toList

/-- A persisted `Job_Listings` row (the columns the core reads or writes). -/
structure Row where
  listing_id : List Char
  site_id : ℤ
  keyword_id : ℤ
  title : List Char
  company : List Char
  location : List Char
  url : List Char
  status : Option (List Char)
  captured_at : List Char
  description : Option (List Char)
  pay_rate : Option (List Char)
  closing_date : Option (List Char)
  suitability_score : Option ℤ
deriving DecidableEq

/-- The row transformation of `update_listing_enrichment`'s `UPDATE` (its
`WHERE` clause matches on `listing_id`): the enrichment dict's description,
pay text and closing-date text plus the new score are written, nothing else. -/
def enrichRow (lid : List Char) (e : Enrichment) (newScore : ℤ) (r : Row) : Row :=
  if r.listing_id = lid then
    { r with description := some e.description, pay_rate := some e.payText
             closing_date := some e.closingDateText, suitability_score := some newScore }
  else r

/-- `update_listing_enrichment`: an `UPDATE` rewrites matching rows in place
(no row is inserted or deleted). -/
def updateListingEnrichment (db : List Row) (lid : List Char) (e : Enrichment)
    (newScore : ℤ) : List Row :=
  db.map (enrichRow lid e newScore)

/-- The row transformation of `_update_listing_score`'s SQL fallback (branch
with both `site_id` and `status` columns present):
`SET suitability_score=?, status=COALESCE(status, ...)` with `queued_deep` or `new`
for the NULL case, `WHERE listing_id=? AND site_id=?`. -/
def scoreRowUpdate (lid : List Char) (siteId : ℤ) (score : ℤ) (queueDeep : Bool)
    (r : Row) : Row :=
  if r.listing_id = lid ∧ r.site_id = siteId then
    { r with
        suitability_score := some score
        status := some (match r.status with
          | some s => s
          | none => if queueDeep then kwQueuedDeep else kwNew) }
  else r

/-- `_update_listing_score` as an `UPDATE` over the listing table. -/
def updateListingScoreRows (db : List Row) (lid : List Char) (siteId : ℤ)
    (score : ℤ) (queueDeep : Bool) : List Row :=
  db.map (scoreRowUpdate lid siteId score queueDeep)

/-! ## Concrete fixtures used by counterexamples and witnesses -/

def c1wTitle : List Char := "banana".toList

def c1wVal : List Char := "a".toList

def c1wListing : Listing :=
  { listing_id := none, title := c1wTitle, company := [], location := [], url := [] }

/-- A criterion whose matched item registers its `min` value (2) as a ceiling. -/
def c1wCritCeil : Criterion :=
  { field := kwTitle, method := some kwContains, min := some 2, max := none
    inc := none, dec := none
    items := [{ value := c1wVal, impact := some kwMinimum }] }

/-- A criterion whose matched item registers its `max` value (5) as a floor. -/
def c1xCritFloor : Criterion :=
  { field := kwTitle, method := some kwContains, min := none, max := some 5
    inc := none, dec := none
    items := [{ value := c1wVal, impact := some kwMaximum }] }

def c2payFixture : List Char := "55 per hour".toList

def c2pageFixture : DetailPage :=
  { descriptionText := none, payTextRaw := some c2payFixture, closingDateTextRaw := none }

def c3bannerText : List Char := "0 jobs found".toList

def c3metaText : List Char := "Jobs with 7 jobs found".toList

def c3srcText : List Char := "noinfo".toList

/-- A rendered page whose banner parses to 0, whose meta description carries
`with 7 jobs found`, and which shows 3 cards. -/
def c3pageFixture : RenderedPage :=
  { totalMessageText := some c3bannerText, metaDescriptions := [c3metaText]
    pageSource := c3srcText, visibleCards := 3 }

def c4lid : List Char := "1234567".toList

def c4base : List Char := "https://www.seek.com.au".toList

def c4path : List Char := "/job/1234567".toList

def c4card : Card :=
  { urlPath := c4path, dataJobId := none, rawMarkup := [], title := []
    company := [], location := [] }

/-- Gateway state in which the listing `1234567` is already persisted (row
count 1) and its id was preloaded into the seen set. -/
def c4state : GatewayState :=
  { rows := fun k => if k = c4lid then 1 else 0, seen := [c4lid], inserted := 0, skipped := 0 }

def c5path : List Char := "/jobs".toList

def c5markup : List Char := "nodigits".toList

/-- A card with no resolvable listing id: no `/job/<digits>` segment, no data
attribute, no embedded `"jobId"` field, and no 5..12-digit run in the URL. -/
def c5card : Card :=
  { urlPath := c5path, dataJobId := none, rawMarkup := c5markup, title := []
    company := [], location := [] }

def c5state : GatewayState :=
  { rows := fun _ => 0, seen := [], inserted := 0, skipped := 0 }

def c6val : List Char := "agency".toList

def c6fval : List Char := "Agency Work".toList

def c6item : CriterionItem := { value := c6val, impact := some kwExclude }

def c6crit : Criterion :=
  { field := kwTitle, method := some kwContains, min := none, max := none
    inc := none, dec := none, items := [c6item] }

def c6st0 : ScoreState :=
  { score := 3, excluded := false, reasons := [], minCapAfter := none, maxFloorAfter := none }

def c7exTitle : List Char := "Senior Manager".toList

def c7exVal : List Char := "manager".toList

def c7exItem : CriterionItem := { value := c7exVal, impact := some kwDecrease }

def c7exListing : Listing :=
  { listing_id := none, title := c7exTitle, company := [], location := [], url := [] }

/-- The claim's example criterion: `contains` on title, item `manager` with
effect `decrease`, decrease-delta −2. -/
def c7exCriterion : Criterion :=
  { field := kwTitle, method := some kwContains, min := none, max := none
    inc := none, dec := some (-2), items := [c7exItem] }

def c7st0 : ScoreState :=
  { score := 3, excluded := false, reasons := [], minCapAfter := none, maxFloorAfter := none }

def c7xHay : List Char := "Manager".toList

def c7xNeedle : List Char := "manager".toList

def c10lid : List Char := "123456".toList

def c10row : Row :=
  { listing_id := c10lid, site_id := 1, keyword_id := 2, title := [], company := []
    location := [], url := [], status := some kwNew, captured_at := []
    description := none, pay_rate := none, closing_date := none, suitability_score := some 3 }

/-! ## Theorems -/

lemma qAdd_eq (a b : ℚ) : qAdd a b = a + b := by
  rw [qAdd, Rat.divInt_eq_div]
  have ha : ((a.den : ℚ)) ≠ 0 := by
    exact_mod_cast a.den_nz
  have hb : ((b.den : ℚ)) ≠ 0 := by
    exact_mod_cast b.den_nz
  conv_rhs => rw [← Rat.num_div_den a, ← Rat.num_div_den b]
  rw [div_add_div _ _ ha hb]
  push_cast
  ring_nf

/-- C2: for every detail page given to the deep-enrich operation, the
returned record's description, pay-text and closing-date-text fields equal
the extracted text when extraction found it and the empty string when it did
not; the operation is a total function, so it never raises. -/
theorem c2_deep_enrich (p : DetailPage) :
    ((p.descriptionText = none → (deepEnrich p).description = [])
      ∧ ∀ t, p.descriptionText = some t → (deepEnrich p).description = t)
    ∧ ((p.payTextRaw = none → (deepEnrich p).payText = [])
      ∧ ∀ t, p.payTextRaw = some t → (deepEnrich p).payText = t)
    ∧ ((p.closingDateTextRaw = none → (deepEnrich p).closingDateText = [])
      ∧ ∀ t, p.closingDateTextRaw = some t → (deepEnrich p).closingDateText = t) := by
  refine ⟨⟨fun h => ?_, fun t h => ?_⟩, ⟨fun h => ?_, fun t h => ?_⟩,
    ⟨fun h => ?_, fun t h => ?_⟩⟩ <;> simp [deepEnrich, h]

/-- Witness for C2 at a concrete detail page with a missing description and
a present pay text. -/
theorem c2_deep_enrich_witness :
    c2pageFixture.descriptionText = none
    ∧ (deepEnrich c2pageFixture).description = []
    ∧ (deepEnrich c2pageFixture).payText = c2payFixture :=
  ⟨rfl, (c2_deep_enrich c2pageFixture).1.1 rfl,
    (c2_deep_enrich c2pageFixture).2.1.2 c2payFixture rfl⟩

lemma resolvePageSize_pos (d : Option ℕ) (c : ℕ) : 1 ≤ resolvePageSize d c := by
  cases d with
  | none => simp only [resolvePageSize]; omega
  | some ps =>
    by_cases h : ps = 0 <;> simp only [resolvePageSize, h, if_true, if_false] <;> omega

lemma ceilDiv_eq_ceil (total ps : ℕ) (_ht : total ≠ 0) (hp : 1 ≤ ps) :
    (((total + ps - 1) / ps : ℕ) : ℤ) = ⌈(total : ℚ) / (ps : ℚ)⌉ := by
  have hp0 : 0 < ps := hp
  have hdm := Nat.div_add_mod (total + ps - 1) ps
  have hmlt : (total + ps - 1) % ps < ps := Nat.mod_lt _ hp0
  set q := (total + ps - 1) / ps with hq
  set r := (total + ps - 1) % ps with hr
  have h1 : total ≤ ps * q := by omega
  have h2 : ps * q < total + ps := by omega
  have hpq : (0 : ℚ) < (ps : ℚ) := by exact_mod_cast hp0
  symm
  rw [Int.ceil_eq_iff]
  constructor
  · rw [lt_div_iff₀ hpq]
    have h2q : ((ps : ℚ)) * q < total + ps := by exact_mod_cast h2
    push_cast
    nlinarith [h2q]
  · rw [div_le_iff₀ hpq]
    have h1q : ((total : ℚ)) ≤ ps * q := by exact_mod_cast h1
    push_cast
    nlinarith [h1q]

/-- C8: for every non-zero reported total, the resolved page size is at least
1 and `totalPages = ceil(totalReported / pageSize)`; in particular 47
listings at page size 22 give 3 pages. -/
theorem c8_total_pages :
    (∀ (discovered : Option ℕ) (cards total : ℕ), total ≠ 0 →
      1 ≤ resolvePageSize discovered cards
      ∧ ((computeTotalPages total (resolvePageSize discovered cards) cards : ℤ)
          = ⌈(total : ℚ) / (resolvePageSize discovered cards : ℚ)⌉))
    ∧ computeTotalPages 47 22 0 = 3 := by
  constructor
  · intro d cards total ht
    refine ⟨resolvePageSize_pos d cards, ?_⟩
    rw [computeTotalPages, if_pos ht]
    exact ceilDiv_eq_ceil total _ ht (resolvePageSize_pos d cards)
  · decide

/-- Witness for C8 at the claim's example: total 47, discovered page size 22. -/
theorem c8_total_pages_witness :
    (47 : ℕ) ≠ 0
    ∧ 1 ≤ resolvePageSize (some 22) 0
    ∧ ((computeTotalPages 47 (resolvePageSize (some 22) 0) 0 : ℤ)
        = ⌈(47 : ℚ) / (resolvePageSize (some 22) 0 : ℚ)⌉) :=
  ⟨by decide, (c8_total_pages.1 (some 22) 0 47 (by decide)).1,
    (c8_total_pages.1 (some 22) 0 47 (by decide)).2⟩

/-- C9: the enrichment update maps each stored row in place (same row count,
so no listing row is deleted), writing only description, pay text, closing
date and score; listing id, site id, keyword id, title, company, location,
url, status and captured timestamp are unchanged on every row. -/
theorem c9_enrichment_frame (db : List Row) (lid : List Char) (e : Enrichment) (ns : ℤ) :
    (updateListingEnrichment db lid e ns).length = db.length
    ∧ (∀ r : Row,
        (enrichRow lid e ns r).listing_id = r.listing_id
        ∧ (enrichRow lid e ns r).site_id = r.site_id
        ∧ (enrichRow lid e ns r).keyword_id = r.keyword_id
        ∧ (enrichRow lid e ns r).title = r.title
        ∧ (enrichRow lid e ns r).company = r.company
        ∧ (enrichRow lid e ns r).location = r.location
        ∧ (enrichRow lid e ns r).url = r.url
        ∧ (enrichRow lid e ns r).status = r.status
        ∧ (enrichRow lid e ns r).captured_at = r.captured_at)
    ∧ updateListingEnrichment db lid e ns = db.map (enrichRow lid e ns) := by
  refine ⟨?_, ?_, rfl⟩
  · simp [updateListingEnrichment]
  · intro r
    unfold enrichRow
    split <;> simp

/-- C10: the score-update operation never overwrites a non-null status (the
`COALESCE(status, …)`), assigns `queued_deep`/`new` only to a previously NULL
status of the addressed (site, listing) row, and leaves rows with a different
key entirely unchanged. -/
theorem c10_status_preserved (db : List Row) (lid : List Char) (siteId score : ℤ)
    (q : Bool) (r : Row) :
    (∀ s, r.status = some s → (scoreRowUpdate lid siteId score q r).status = some s)
    ∧ (r.status = none → r.listing_id = lid → r.site_id = siteId →
        (scoreRowUpdate lid siteId score q r).status
          = some (if q then kwQueuedDeep else kwNew))
    ∧ (¬(r.listing_id = lid ∧ r.site_id = siteId) → scoreRowUpdate lid siteId score q r = r)
    ∧ updateListingScoreRows db lid siteId score q = db.map (scoreRowUpdate lid siteId score q) := by
  refine ⟨?_, ?_, ?_, rfl⟩
  · intro s hs
    unfold scoreRowUpdate
    split <;> simp [hs]
  · intro h0 h1 h2
    unfold scoreRowUpdate
    rw [if_pos ⟨h1, h2⟩]
    simp [h0]
  · intro hn
    unfold scoreRowUpdate
    rw [if_neg hn]

/-- Witness for C10: a row whose status is already `new` keeps it across a
score update that would queue the listing. -/
theorem c10_status_preserved_witness :
    c10row.status = some kwNew
    ∧ (scoreRowUpdate c10lid 1 5 true c10row).status = some kwNew :=
  ⟨rfl, (c10_status_preserved [] c10lid 1 5 true c10row).1 kwNew rfl⟩

/-- Counterexample for C3 as stated: on `c3pageFixture` the banner parses to
0, so the resolver returns 0 and never consults the meta tier, while the
claimed first-successful-non-zero cascade would return 7; the page also shows
3 visible cards, which the resolver (unlike the claimed tier (d)) ignores. -/
theorem c3_counterexample :
    seekParseTotalListings c3pageFixture = 0
    ∧ specResolveTotalCount c3pageFixture = 7
    ∧ c3pageFixture.visibleCards = 3 := by decide

/-- C3 (amended): the Seek resolver tries the banner, then the
`with N jobs found` meta phrase, then the embedded `totalJobCount` field, in
that order; the first tier that parses at all supplies the result (zero
included), there is no visible-card fallback (the result is independent of
the card count), and 0 is returned when all three tiers fail. -/
theorem c3_total_count_amended :
    (∀ p : RenderedPage,
      seekParseTotalListings p
        = ((((tierBanner p).orElse fun _ => tierMeta p).orElse fun _ => tierEmbedded p).getD 0))
    ∧ (∀ (p : RenderedPage) (n : ℕ),
        seekParseTotalListings { p with visibleCards := n } = seekParseTotalListings p) := by
  constructor
  · intro p
    rcases htb : tierBanner p with _ | a <;>
      rcases htm : tierMeta p with _ | b <;>
        rcases hte : tierEmbedded p with _ | c <;>
          simp [seekParseTotalListings, htb, htm, hte, Option.orElse, Option.getD]
  · intro p n
    rfl

/-- C4: re-submitting an already-persisted (site, listing id) pair — its row
count is 1 and its id was preloaded into the gateway's seen set — leaves the
row count at 1, increments the skip counter and not the insert counter, and
yields the skip outcome (a no-op, not the failure path); likewise the raw
`INSERT OR IGNORE` fallback reports `ignored (duplicate)` with no new row. -/
theorem c4_idempotent_resubmit (rsearch : RegexSearch) (criteria : List Criterion)
    (threshold : ℤ) (baseUrl : List Char) (st : GatewayState) (card : Card)
    (lid : List Char)
    (hid : (extractListingMinimal baseUrl card).listing_id = some lid)
    (hrow : st.rows lid = 1) (hseen : lid ∈ st.seen) :
    ((upsertCard rsearch criteria threshold baseUrl st card).1.rows lid = 1
      ∧ (upsertCard rsearch criteria threshold baseUrl st card).1.inserted = st.inserted
      ∧ (upsertCard rsearch criteria threshold baseUrl st card).1.skipped = st.skipped + 1
      ∧ (upsertCard rsearch criteria threshold baseUrl st card).2 = .skippedDup)
    ∧ directUpsertListingRow st.rows lid = (st.rows, false, .ignoredDuplicate) := by
  constructor
  · simp only [upsertCard, hid]
    rw [if_pos hseen]
    exact ⟨hrow, rfl, rfl, rfl⟩
  · unfold directUpsertListingRow
    rw [if_pos (by omega : 0 < st.rows lid)]

/-- Witness for C4 at a concrete persisted listing `1234567`. -/
theorem c4_idempotent_resubmit_witness :
    (extractListingMinimal c4base c4card).listing_id = some c4lid
    ∧ c4state.rows c4lid = 1
    ∧ c4lid ∈ c4state.seen
    ∧ (upsertCard noRegex [] 3 c4base c4state c4card).1.rows c4lid = 1
    ∧ (upsertCard noRegex [] 3 c4base c4state c4card).1.inserted = c4state.inserted
    ∧ (upsertCard noRegex [] 3 c4base c4state c4card).1.skipped = c4state.skipped + 1
    ∧ (upsertCard noRegex [] 3 c4base c4state c4card).2 = .skippedDup :=
  ⟨by decide, by decide, by decide,
    (c4_idempotent_resubmit noRegex [] 3 c4base c4state c4card c4lid
      (by decide) (by decide) (by decide)).1.1,
    (c4_idempotent_resubmit noRegex [] 3 c4base c4state c4card c4lid
      (by decide) (by decide) (by decide)).1.2.1,
    (c4_idempotent_resubmit noRegex [] 3 c4base c4state c4card c4lid
      (by decide) (by decide) (by decide)).1.2.2.1,
    (c4_idempotent_resubmit noRegex [] 3 c4base c4state c4card c4lid
      (by decide) (by decide) (by decide)).1.2.2.2⟩

/-- C5: the listing id is the first hit of, in order, the `/job/<digits>`
URL segment, the `data-job-id` attribute, the embedded `"jobId"` markup
field, and the generic numeric URL substring; and a card resolving to a null
id is dropped by `_upsert_card` with the gateway state completely untouched —
no scoring result is produced and neither counters, seen set nor rows change. -/
theorem c5_listing_id_resolution :
    (∀ (baseUrl : List Char) (card : Card),
      (extractListingMinimal baseUrl card).listing_id
        = ((((idFromJobPath (joinUrl baseUrl card.urlPath)).orElse
              fun _ => attrId card).orElse
              fun _ => idFromMarkup card.rawMarkup).orElse
              fun _ =>
                if joinUrl baseUrl card.urlPath ≠ [] then idGeneric (joinUrl baseUrl card.urlPath)
                else none))
    ∧ (∀ (rsearch : RegexSearch) (criteria : List Criterion) (threshold : ℤ)
        (baseUrl : List Char) (st : GatewayState) (card : Card),
        (extractListingMinimal baseUrl card).listing_id = none →
        upsertCard rsearch criteria threshold baseUrl st card = (st, .droppedNoId)) := by
  constructor
  · intro baseUrl card
    rcases h1 : idFromJobPath (joinUrl baseUrl card.urlPath) with _ | i1 <;>
      rcases h2 : attrId card with _ | i2 <;>
        rcases h3 : idFromMarkup card.rawMarkup with _ | i3 <;>
          simp [extractListingMinimal, h1, h2, h3, Option.orElse]
  · intro rsearch criteria threshold baseUrl st card h
    simp only [upsertCard, h]

/-- Witness for C5: a concrete card with no id source at all is dropped. -/
theorem c5_listing_id_resolution_witness :
    (extractListingMinimal c4base c5card).listing_id = none
    ∧ upsertCard noRegex [] 3 c4base c5state c5card = (c5state, .droppedNoId) :=
  ⟨by decide,
    c5_listing_id_resolution.2 noRegex [] 3 c4base c5state c5card (by decide)⟩

lemma itemEffect_of_exclude (rsearch : RegexSearch) (c : Criterion) (fval method : List Char)
    (it : CriterionItem) (hv : it.value ≠ [])
    (hm : pyMatch rsearch method fval it.value = true)
    (hi : impactAliased it.impact = kwExclude) :
    itemEffect rsearch c fval method it = .exclude := by
  have hpf : parsePyFloat kwExclude = none := by decide
  simp +decide [itemEffect, hv, hm, hi, hpf]

lemma itemEffect_of_decrease (rsearch : RegexSearch) (c : Criterion) (fval method : List Char)
    (it : CriterionItem) (hv : it.value ≠ [])
    (hm : pyMatch rsearch method fval it.value = true)
    (hi : impactAliased it.impact = kwDecrease) :
    itemEffect rsearch c fval method it = .decrease := by
  have hpf : parsePyFloat kwDecrease = none := by decide
  simp +decide [itemEffect, hv, hm, hi, hpf]

/-- C6: a matched item whose effect tag normalizes to `exclude` sets the
exclusion flag and leaves the running score (and both collected clamps)
unchanged; and whenever `_upsert_card` persists a new listing, its stored
queue decision is exactly `(not excluded) and (finalScore >= threshold)`. -/
theorem c6_exclude_and_queue :
    (∀ (rsearch : RegexSearch) (c : Criterion) (fval method : List Char)
        (st : ScoreState) (it : CriterionItem),
        it.value ≠ [] →
        pyMatch rsearch method fval it.value = true →
        impactAliased it.impact = kwExclude →
        (processItem rsearch c fval method st it).score = st.score
          ∧ (processItem rsearch c fval method st it).excluded = true
          ∧ (processItem rsearch c fval method st it).minCapAfter = st.minCapAfter
          ∧ (processItem rsearch c fval method st it).maxFloorAfter = st.maxFloorAfter)
    ∧ (∀ (rsearch : RegexSearch) (criteria : List Criterion) (threshold : ℤ)
        (baseUrl : List Char) (st : GatewayState) (card : Card)
        (st' : GatewayState) (p : ℤ) (e q : Bool),
        upsertCard rsearch criteria threshold baseUrl st card = (st', .insertedNew p e q) →
        q = (!e && decide (threshold ≤ p))) := by
  constructor
  · intro rsearch c fval method st it hv hm hi
    have he := itemEffect_of_exclude rsearch c fval method it hv hm hi
    simp [processItem, he]
  · intro rsearch criteria threshold baseUrl st card st' p e q h
    simp only [upsertCard] at h
    rcases hid : (extractListingMinimal baseUrl card).listing_id with _ | lid
    · rw [hid] at h
      simp at h
    · rw [hid] at h
      simp only [] at h
      by_cases hs : lid ∈ st.seen
      · rw [if_pos hs] at h
        simp at h
      · rw [if_neg hs] at h
        injection h with h1 h2
        injection h2 with hp he' hq
        subst hp
        subst he'
        subst hq
        rfl

/-- Witness for C6 at a concrete excluded listing: the matched `exclude` item
flips the flag and keeps the score. -/
theorem c6_exclude_and_queue_witness :
    (processItem noRegex c6crit c6fval kwContains c6st0 c6item).score = c6st0.score
    ∧ (processItem noRegex c6crit c6fval kwContains c6st0 c6item).excluded = true :=
  ⟨(c6_exclude_and_queue.1 noRegex c6crit c6fval kwContains c6st0 c6item
      (by decide) (by decide) (by decide)).1,
    (c6_exclude_and_queue.1 noRegex c6crit c6fval kwContains c6st0 c6item
      (by decide) (by decide) (by decide)).2.1⟩

lemma processItem_minCap (rsearch : RegexSearch) (c : Criterion) (fval method : List Char)
    (st : ScoreState) (it : CriterionItem) :
    (processItem rsearch c fval method st it).minCapAfter
      = (itemCeilRegs rsearch c fval method it).foldl optMinUpd st.minCapAfter := by
  cases h : itemEffect rsearch c fval method it <;>
    simp [processItem, itemCeilRegs, h, optMinUpd]

lemma processItem_maxFloor (rsearch : RegexSearch) (c : Criterion) (fval method : List Char)
    (st : ScoreState) (it : CriterionItem) :
    (processItem rsearch c fval method st it).maxFloorAfter
      = (itemFloorRegs rsearch c fval method it).foldl optMaxUpd st.maxFloorAfter := by
  cases h : itemEffect rsearch c fval method it <;>
    simp [processItem, itemFloorRegs, h, optMaxUpd]

lemma foldl_items_minCap (rsearch : RegexSearch) (c : Criterion) (fval method : List Char)
    (xs : List CriterionItem) :
    ∀ st : ScoreState,
      (xs.foldl (processItem rsearch c fval method) st).minCapAfter
        = ((xs.map (itemCeilRegs rsearch c fval method)).flatten).foldl optMinUpd st.minCapAfter := by
  induction xs with
  | nil => intro st; rfl
  | cons x t ih =>
    intro st
    rw [List.foldl_cons, ih (processItem rsearch c fval method st x),
      processItem_minCap]
    simp [List.foldl_append]

lemma foldl_items_maxFloor (rsearch : RegexSearch) (c : Criterion) (fval method : List Char)
    (xs : List CriterionItem) :
    ∀ st : ScoreState,
      (xs.foldl (processItem rsearch c fval method) st).maxFloorAfter
        = ((xs.map (itemFloorRegs rsearch c fval method)).flatten).foldl optMaxUpd st.maxFloorAfter := by
  induction xs with
  | nil => intro st; rfl
  | cons x t ih =>
    intro st
    rw [List.foldl_cons, ih (processItem rsearch c fval method st x),
      processItem_maxFloor]
    simp [List.foldl_append]

lemma foldl_criteria_minCap (rsearch : RegexSearch) (l : Listing) (cs : List Criterion) :
    ∀ st : ScoreState,
      (cs.foldl (processCriterion rsearch l) st).minCapAfter
        = ((cs.map (criterionCeilRegs rsearch l)).flatten).foldl optMinUpd st.minCapAfter := by
  induction cs with
  | nil => intro st; rfl
  | cons c t ih =>
    intro st
    rw [List.foldl_cons, ih (processCriterion rsearch l st c)]
    have hc : (processCriterion rsearch l st c).minCapAfter
        = (criterionCeilRegs rsearch l c).foldl optMinUpd st.minCapAfter :=
      foldl_items_minCap rsearch c _ _ c.items st
    rw [hc]
    simp [List.foldl_append]

lemma foldl_criteria_maxFloor (rsearch : RegexSearch) (l : Listing) (cs : List Criterion) :
    ∀ st : ScoreState,
      (cs.foldl (processCriterion rsearch l) st).maxFloorAfter
        = ((cs.map (criterionFloorRegs rsearch l)).flatten).foldl optMaxUpd st.maxFloorAfter := by
  induction cs with
  | nil => intro st; rfl
  | cons c t ih =>
    intro st
    rw [List.foldl_cons, ih (processCriterion rsearch l st c)]
    have hc : (processCriterion rsearch l st c).maxFloorAfter
        = (criterionFloorRegs rsearch l c).foldl optMaxUpd st.maxFloorAfter :=
      foldl_items_maxFloor rsearch c _ _ c.items st
    rw [hc]
    simp [List.foldl_append]

lemma scoreLoop_minCap (rsearch : RegexSearch) (l : Listing) (criteria : List Criterion)
    (base : ℤ) :
    (scoreLoop rsearch l criteria base).minCapAfter
      = (registeredCeilings rsearch l criteria).foldl optMinUpd none :=
  foldl_criteria_minCap rsearch l criteria _

lemma scoreLoop_maxFloor (rsearch : RegexSearch) (l : Listing) (criteria : List Criterion)
    (base : ℤ) :
    (scoreLoop rsearch l criteria base).maxFloorAfter
      = (registeredFloors rsearch l criteria).foldl optMaxUpd none :=
  foldl_criteria_maxFloor rsearch l criteria _

lemma foldl_optMinUpd_some (xs : List ℚ) :
    ∀ m : ℚ, xs.foldl optMinUpd (some m) = some (xs.foldl Min.min m) := by
  induction xs with
  | nil => intro m; rfl
  | cons v t ih =>
    intro m
    simp only [List.foldl_cons, optMinUpd]
    exact ih (Min.min m v)

lemma foldl_optMaxUpd_some (xs : List ℚ) :
    ∀ m : ℚ, xs.foldl optMaxUpd (some m) = some (xs.foldl Max.max m) := by
  induction xs with
  | nil => intro m; rfl
  | cons v t ih =>
    intro m
    simp only [List.foldl_cons, optMaxUpd]
    exact ih (Max.max m v)

lemma foldl_min_le_init (xs : List ℚ) : ∀ m : ℚ, xs.foldl Min.min m ≤ m := by
  induction xs with
  | nil => intro m; exact le_refl m
  | cons v t ih =>
    intro m
    exact le_trans (ih (Min.min m v)) (min_le_left m v)

lemma foldl_max_ge_init (xs : List ℚ) : ∀ m : ℚ, m ≤ xs.foldl Max.max m := by
  induction xs with
  | nil => intro m; exact le_refl m
  | cons v t ih =>
    intro m
    exact le_trans (le_max_left m v) (ih (Max.max m v))

lemma foldl_min_le_mem (xs : List ℚ) : ∀ m v : ℚ, v ∈ xs → xs.foldl Min.min m ≤ v := by
  induction xs with
  | nil =>
    intro m v hv
    cases hv
  | cons a t ih =>
    intro m v hv
    rcases List.mem_cons.mp hv with h | h
    · subst h
      exact le_trans (foldl_min_le_init t (Min.min m v)) (min_le_right m v)
    · exact ih (Min.min m a) v h

lemma foldl_max_ge_mem (xs : List ℚ) : ∀ m v : ℚ, v ∈ xs → v ≤ xs.foldl Max.max m := by
  induction xs with
  | nil =>
    intro m v hv
    cases hv
  | cons a t ih =>
    intro m v hv
    rcases List.mem_cons.mp hv with h | h
    · subst h
      exact le_trans (le_max_right m v) (foldl_max_ge_init t (Max.max m v))
    · exact ih (Max.max m a) v h

lemma foldl_optMinUpd_le (xs : List ℚ) (v : ℚ) (hv : v ∈ xs) :
    ∃ r, xs.foldl optMinUpd none = some r ∧ r ≤ v := by
  cases xs with
  | nil => cases hv
  | cons a t =>
    refine ⟨t.foldl Min.min a, ?_, ?_⟩
    · have h1 : optMinUpd none a = some a := rfl
      rw [List.foldl_cons, h1, foldl_optMinUpd_some]
    · rcases List.mem_cons.mp hv with h | h
      · subst h
        exact foldl_min_le_init t v
      · exact foldl_min_le_mem t a v h

lemma foldl_optMaxUpd_ge (xs : List ℚ) (v : ℚ) (hv : v ∈ xs) :
    ∃ r, xs.foldl optMaxUpd none = some r ∧ v ≤ r := by
  cases xs with
  | nil => cases hv
  | cons a t =>
    refine ⟨t.foldl Max.max a, ?_, ?_⟩
    · have h1 : optMaxUpd none a = some a := rfl
      rw [List.foldl_cons, h1, foldl_optMaxUpd_some]
    · rcases List.mem_cons.mp hv with h | h
      · subst h
        exact foldl_max_ge_init t v
      · exact foldl_max_ge_mem t a v h

/-- Counterexample for C1 as stated: on `c1wListing` with a fired ceiling of
2 and a fired floor of 5, the floor is applied after the ceiling and wins, so
`finalScore = 5` even though a ceiling effect fired with (unique) registered
ceiling value 2 — the claimed `finalScore <= min(registered ceilings)` fails. -/
theorem c1_counterexample :
    registeredCeilings noRegex c1wListing [c1wCritCeil, c1xCritFloor] = [2]
    ∧ registeredFloors noRegex c1wListing [c1wCritCeil, c1xCritFloor] = [5]
    ∧ (applyCardScoring noRegex c1wListing [c1wCritCeil, c1xCritFloor] 3).1 = 5
    ∧ ¬((applyCardScoring noRegex c1wListing [c1wCritCeil, c1xCritFloor] 3).1 ≤ 2) := by
  decide

/-- C1 (amended): after all criteria are evaluated the engine applies the
collected upper clamp and then the collected lower clamp, and rounds half to
even; the score after the upper clamp (before the floor) is ≤ every
registered ceiling value, and the fully clamped score is ≥ every registered
floor value — so when a larger floor fired the final score may exceed the
ceilings, and rounding may move the integer result off a fractional bound. -/
theorem c1_clamp_amended (rsearch : RegexSearch) (l : Listing) (criteria : List Criterion)
    (base : ℤ) :
    (applyCardScoring rsearch l criteria base).1
        = pyRound (applyBounds (scoreLoop rsearch l criteria base))
    ∧ (∀ v ∈ registeredCeilings rsearch l criteria,
        cappedScore (scoreLoop rsearch l criteria base) ≤ v)
    ∧ (∀ v ∈ registeredFloors rsearch l criteria,
        v ≤ applyBounds (scoreLoop rsearch l criteria base)) := by
  refine ⟨rfl, ?_, ?_⟩
  · intro v hv
    obtain ⟨r, hr, hrv⟩ := foldl_optMinUpd_le _ v hv
    have hm : (scoreLoop rsearch l criteria base).minCapAfter = some r := by
      rw [scoreLoop_minCap]
      exact hr
    unfold cappedScore
    rw [hm]
    exact le_trans (min_le_right _ _) hrv
  · intro v hv
    obtain ⟨r, hr, hvr⟩ := foldl_optMaxUpd_ge _ v hv
    have hm : (scoreLoop rsearch l criteria base).maxFloorAfter = some r := by
      rw [scoreLoop_maxFloor]
      exact hr
    unfold applyBounds
    rw [hm]
    exact le_trans hvr (le_max_right _ _)

/-- Witness for C1 (amended) at a concrete fired ceiling of value 2. -/
theorem c1_clamp_amended_witness :
    (2 : ℚ) ∈ registeredCeilings noRegex c1wListing [c1wCritCeil]
    ∧ cappedScore (scoreLoop noRegex c1wListing [c1wCritCeil] 3) ≤ 2 :=
  ⟨by decide,
    (c1_clamp_amended noRegex c1wListing [c1wCritCeil] 3).2.1 2 (by decide)⟩

/-- Counterexample for C7 as stated: under the `equals` method the item value
`manager` matches the field value `Manager` although the two strings are not
exactly equal — the comparison is case-insensitive, not exact equality. -/
theorem c7_counterexample :
    pyMatch noRegex kwEquals c7xHay c7xNeedle = true ∧ c7xHay ≠ c7xNeedle := by
  decide

/-- C7 (amended): matching is case-insensitive for every method — substring
for `contains` and for unknown methods, equality / prefix / suffix on the
lower-cased strings for `equals`/`startswith`/`endswith`, word-boundary
search on the lower-cased strings for `word`; a matched `decrease` item adds
the criterion's decrease-delta (default −1) to the running score; and the
claim's example (base 3, `contains` `manager` with delta −2 on title
`Senior Manager`) yields `finalScore = 1` and `excluded = false`. -/
theorem c7_match_and_decrease_amended :
    (∀ (rsearch : RegexSearch) (h n : List Char),
        pyMatch rsearch kwContains h n = hasSubL (lowerL n) (lowerL h)
        ∧ pyMatch rsearch kwEquals h n = (lowerL h == lowerL n)
        ∧ pyMatch rsearch kwStartswith h n = hasPrefixL (lowerL n) (lowerL h)
        ∧ pyMatch rsearch kwEndswith h n = hasSuffixL (lowerL n) (lowerL h)
        ∧ pyMatch rsearch kwWord h n = wordMatch (lowerL h) (lowerL n))
    ∧ (∀ (rsearch : RegexSearch) (m h n : List Char),
        pyNorm m ∉ [kwEquals, kwExact, kwStartswith, kwEndswith, kwRegex, kwRe, kwWord, kwWholeword] →
        pyMatch rsearch m h n = hasSubL (lowerL n) (lowerL h))
    ∧ (∀ (rsearch : RegexSearch) (c : Criterion) (fval method : List Char)
        (st : ScoreState) (it : CriterionItem),
        it.value ≠ [] →
        pyMatch rsearch method fval it.value = true →
        impactAliased it.impact = kwDecrease →
        (processItem rsearch c fval method st it).score = st.score + c.dec.getD (-1))
    ∧ ((applyCardScoring noRegex c7exListing [c7exCriterion] 3).1 = 1
        ∧ (applyCardScoring noRegex c7exListing [c7exCriterion] 3).2.1 = false) := by
  refine ⟨?_, ?_, ?_, by decide, by decide⟩
  · intro rsearch h n
    exact ⟨rfl, rfl, rfl, rfl, rfl⟩
  · intro rsearch m h n hm
    simp only [List.mem_cons, List.not_mem_nil, or_false, not_or] at hm
    obtain ⟨h1, h2, h3, h4, h5, h6, h7, h8⟩ := hm
    simp [pyMatch, h1, h2, h3, h4, h5, h6, h7, h8]
  · intro rsearch c fval method st it hv hmt hi
    have he := itemEffect_of_decrease rsearch c fval method it hv hmt hi
    simp [processItem, he, qAdd_eq]

/-- Witness for C7 (amended) at the claim's own example item. -/
theorem c7_match_and_decrease_amended_witness :
    c7exItem.value ≠ []
    ∧ pyMatch noRegex kwContains c7exTitle c7exItem.value = true
    ∧ impactAliased c7exItem.impact = kwDecrease
    ∧ (processItem noRegex c7exCriterion c7exTitle kwContains c7st0 c7exItem).score
        = c7st0.score + c7exCriterion.dec.getD (-1) :=
  ⟨by decide, by decide, by decide,
    c7_match_and_decrease_amended.2.2.1 noRegex c7exCriterion c7exTitle kwContains c7st0 c7exItem
      (by decide) (by decide) (by decide)⟩

end JobHunter
